import Mathlib

/-!
Verification of the sitting_duck AST-index system: a shallow embedding of the
parquet index lifecycle (`src/scripts/parquet_index_manager.py`), the query
engine (`src/ast.py`), and the semantic-type taxonomy macros
(`src/scripts/migrate_tests_to_semantic_types.py`), together with theorems
checking the documented properties against the embedded code.
-/

namespace SittingDuck

/-- One row per syntax-tree node, mirroring the columns produced by
`read_ast` and stored in each `.index-<lang>.parquet` file. -/
structure NodeRecord where
  file_path : String
  language : String
  node_id : Nat
  parent_id : Option Nat
  type : String
  semantic_type : Option Nat
  name : Option String
  start_line : Nat
  end_line : Nat
  sibling_index : Nat
  children_count : Nat
  descendant_count : Nat
  peek : Option String
deriving DecidableEq, Repr

/-- Substring containment, modelling SQL `LIKE '%needle%'` on non-null text. -/
def strContains (hay needle : String) : Bool :=
  decide (needle.data <:+: hay.data)

/-- SQL `MAX` over a set of non-null VARCHAR values: the lexicographic
maximum, `none` when the set is empty (NULL in SQL). -/
def sqlMax : List String → Option String
  | [] => none
  | a :: l =>
    match sqlMax l with
    | none => some a
    | some b => some (max a b)

/-- Index file name for a language tag, `.index-{lang}.parquet`
(`src/ast.py`, `index`/`funcs`). -/
def indexPathFor (lang : String) : String := ".index-" ++ lang ++ ".parquet"

/-- `os.path.splitext(file_path)[1].lstrip('.')`: the extension after the last
dot of the basename, empty when the basename has no extension
(`src/ast.py`, `funcs`). -/
def extOf (path : String) : String :=
  let base := (path.splitOn "/").getLastD ""
  let parts := base.splitOn "."
  if parts.length ≤ 1 then ""
  else if parts.dropLast.all (fun s => s == "") then ""
  else parts.getLastD ""

/-- The record stream persisted by `AST.index`: one `read_ast` stream per
pattern, combined with `UNION ALL` (`src/ast.py`, `index`). `parse` is the
external `read_ast` collaborator. -/
def indexRecords (parse : String → List NodeRecord) (patterns : List String) :
    List NodeRecord :=
  (patterns.map parse).flatten

/-- File-system effects performed by the lifecycle operations. -/
inductive FsOp where
  | write (path : String) (contents : List NodeRecord)
  | rename (src : String) (dst : String)
deriving DecidableEq, Repr

/-- Effect of one file-system operation on a store mapping each path to the
records of the file there (`none` = no file). -/
def applyFsOp (fs : String → Option (List NodeRecord)) :
    FsOp → String → Option (List NodeRecord)
  | FsOp.write p c, q => if q = p then some c else fs q
  | FsOp.rename src dst, q =>
    if q = src then none else if q = dst then fs src else fs q

/-- Effect of a sequence of file-system operations, applied left to right. -/
def applyFsOps (fs : String → Option (List NodeRecord)) :
    List FsOp → String → Option (List NodeRecord)
  | [], q => fs q
  | op :: ops, q => applyFsOps (applyFsOp fs op) ops q

/-- File-system effects of `AST.index(lang, *patterns)`: raises when no
pattern is given, otherwise a single `COPY ... TO '{index_path}'`, a direct
write to the published index path (`src/ast.py`, `index`). -/
def astIndexOps (lang : String) (parse : String → List NodeRecord)
    (patterns : List String) : Except String (List FsOp) :=
  if patterns.isEmpty then Except.error "At least one pattern is required"
  else Except.ok [FsOp.write (indexPathFor lang) (indexRecords parse patterns)]

/-- `SELECT DISTINCT file_path` over a record stream. -/
def distinctPaths (recs : List NodeRecord) : List String :=
  (recs.map (fun r => r.file_path)).dedup

/-- The `new_file_count` computed by `ASTIndexManager.update_index`: the number
of distinct freshly parsed paths absent from the existing index
(`src/scripts/parquet_index_manager.py`, lines 90-101). -/
def newFileCount (existing fresh : List NodeRecord) : Nat :=
  ((distinctPaths fresh).filter
    (fun p => !((existing.map (fun r => r.file_path)).contains p))).length

/-- The merged stream written by `update_index`: existing records whose
`file_path` is not among the freshly parsed paths, followed by the fresh
records (`src/scripts/parquet_index_manager.py`, lines 109-118). -/
def mergedRecords (existing fresh : List NodeRecord) : List NodeRecord :=
  existing.filter
    (fun r => !((fresh.map (fun q => q.file_path)).contains r.file_path))
    ++ fresh

/-- Outcome of `update_index`: the reported status/new-file count and the
file-system effects performed. -/
structure UpdateResult where
  status : String
  new_files : Nat
  ops : List FsOp
deriving DecidableEq, Repr

/-- `ASTIndexManager.update_index(file_pattern, index_path)`: counts the new
files; when there are none, returns `no_updates` touching nothing; otherwise
writes the merged stream to `{index_path}.tmp` and renames it onto
`index_path` (`src/scripts/parquet_index_manager.py`, lines 86-128).
`existing` stands for the records of the published index, `fresh` for the
`read_ast(file_pattern)` stream. -/
def update_index (existing fresh : List NodeRecord) (index_path : String) :
    UpdateResult :=
  if newFileCount existing fresh = 0 then
    { status := "no_updates", new_files := 0, ops := [] }
  else
    { status := "updated", new_files := newFileCount existing fresh,
      ops := [FsOp.write (index_path ++ ".tmp") (mergedRecords existing fresh),
              FsOp.rename (index_path ++ ".tmp") index_path] }

/-- Statistics reported by `ASTIndexManager.get_index_stats`
(`src/scripts/parquet_index_manager.py`, lines 64-84). -/
structure IndexStats where
  indexed_files : Nat
  total_nodes : Nat
  total_functions : Nat
  total_classes : Nat
deriving DecidableEq, Repr

/-- `get_index_stats`: distinct files, all nodes, declarator functions
(`type = 'function_declarator' AND semantic_type = 112`), and classes. -/
def get_index_stats (recs : List NodeRecord) : IndexStats :=
  { indexed_files := (distinctPaths recs).length
    total_nodes := recs.length
    total_functions := (recs.filter (fun r =>
      r.type == "function_declarator" && r.semantic_type == some 112)).length
    total_classes := (recs.filter (fun r =>
      r.type == "class_definition" || r.type == "class_declaration")).length }

/-- The per-index function count computed by `AST.stats`: the broader filter
`type IN ('function_declarator','function_definition') AND
(semantic_type = 112 OR semantic_type IS NULL)` (`src/ast.py`, lines 177-184). -/
def astStatsFunctions (recs : List NodeRecord) : Nat :=
  (recs.filter (fun r =>
    (r.type == "function_declarator" || r.type == "function_definition") &&
    (r.semantic_type == some 112 || r.semantic_type == none))).length

/-- The per-index node count computed by `AST.stats`: `COUNT(*)`. -/
def astStatsNodes (recs : List NodeRecord) : Nat := recs.length

/-- `type = 'function_declarator' AND semantic_type = 112`, the anchor filter
for every function-discovery query. -/
def isDeclarator112 (r : NodeRecord) : Bool :=
  r.type == "function_declarator" && r.semantic_type == some 112

/-- `type IN ('identifier','qualified_identifier')`. -/
def isIdentKind (r : NodeRecord) : Bool :=
  r.type == "identifier" || r.type == "qualified_identifier"

/-- `n.name LIKE '%s%'`: false on NULL names. -/
def nameLikeContains (n : NodeRecord) (s : String) : Bool :=
  match n.name with
  | some nm => strContains nm s
  | none => false

/-- The non-null names of direct children of node `nid` in file `fp` whose
type is `identifier` or `qualified_identifier`: the values aggregated by
`MAX(CASE WHEN c.type IN ('identifier','qualified_identifier') THEN c.name
END)` in `AST.funcs` (`src/ast.py`, lines 49-53). -/
def funcChildNames (recs : List NodeRecord) (fp : String) (nid : Nat) :
    List String :=
  (recs.filter (fun c =>
    c.parent_id == some nid && c.file_path == fp && isIdentKind c)).filterMap
    (fun c => c.name)

/-- The resolved name of a declarator: the SQL `MAX` of its identifier-kind
children's names, NULL when there is none. (The inner join of `AST.funcs`
drops a declarator that has no child row at all, but such a declarator would
aggregate a NULL name and be dropped by `WHERE name IS NOT NULL` anyway, so
the published result is the same.) -/
def declaratorName (recs : List NodeRecord) (fp : String) (nid : Nat) :
    Option String :=
  sqlMax (funcChildNames recs fp nid)

/-- One output row of `AST.funcs`: the selected columns
`name, start_line, end_line, descendant_count`. -/
structure FuncEntry where
  name : String
  start_line : Nat
  end_line : Nat
  descendant_count : Nat
deriving DecidableEq, Repr

/-- `ORDER BY start_line` for `AST.funcs` rows. -/
def funcLE (a b : FuncEntry) : Prop := a.start_line ≤ b.start_line

instance : DecidableRel funcLE := fun a b =>
  inferInstanceAs (Decidable (a.start_line ≤ b.start_line))

instance : IsTotal FuncEntry funcLE := ⟨fun a b => Nat.le_total _ _⟩

instance : IsTrans FuncEntry funcLE := ⟨fun _ _ _ => Nat.le_trans⟩

/-- The columns a declarator row is grouped by in `AST.funcs`
(`GROUP BY f.node_id, f.parent_id, f.start_line, f.end_line,
f.descendant_count`). -/
structure DeclGroup where
  node_id : Nat
  parent_id : Option Nat
  start_line : Nat
  end_line : Nat
  descendant_count : Nat
deriving DecidableEq, Repr

/-- Projection of a declarator row onto its `AST.funcs` group key. -/
def declGroupOf (r : NodeRecord) : DeclGroup :=
  { node_id := r.node_id, parent_id := r.parent_id,
    start_line := r.start_line, end_line := r.end_line,
    descendant_count := r.descendant_count }

/-- `AST.funcs(file_path)` (`src/ast.py`, lines 34-62): declarators of the
file (`type = 'function_declarator' AND semantic_type = 112`), grouped,
named via their identifier-kind children, rows with NULL name discarded,
ordered by `start_line`. -/
def funcs (recs : List NodeRecord) (fp : String) : List FuncEntry :=
  List.insertionSort funcLE
    ((((recs.filter (fun r =>
      r.file_path == fp && isDeclarator112 r)).map declGroupOf).dedup).filterMap
      (fun g => (declaratorName recs fp g.node_id).map (fun n =>
        { name := n, start_line := g.start_line, end_line := g.end_line,
          descendant_count := g.descendant_count })))

/-- One output row of `AST.find`: `file_path, start_line, end_line,
descendant_count`. -/
structure FindEntry where
  file_path : String
  start_line : Nat
  end_line : Nat
  descendant_count : Nat
deriving DecidableEq, Repr

/-- `ORDER BY file_path` for `AST.find` rows. -/
def findLE (a b : FindEntry) : Prop := a.file_path ≤ b.file_path

instance : DecidableRel findLE := fun a b =>
  inferInstanceAs (Decidable (a.file_path ≤ b.file_path))

instance : IsTotal FindEntry findLE := ⟨fun a b => le_total _ _⟩

instance : IsTrans FindEntry findLE := ⟨fun _ _ _ => le_trans⟩

/-- `AST.find(function_name)` (`src/ast.py`, lines 64-86): DISTINCT
declarators/definitions (`semantic_type = 112 OR NULL`) having an
identifier-kind child whose name contains the query, ordered by file. -/
def findQ (recs : List NodeRecord) (function_name : String) : List FindEntry :=
  let m := recs.filter (fun i =>
    (i.type == "function_declarator" || i.type == "function_definition") &&
    (i.semantic_type == some 112 || i.semantic_type == none) &&
    recs.any (fun n =>
      n.parent_id == some i.node_id && n.file_path == i.file_path &&
      isIdentKind n && nameLikeContains n function_name))
  List.insertionSort findLE
    ((m.map (fun i =>
      ({ file_path := i.file_path, start_line := i.start_line,
         end_line := i.end_line,
         descendant_count := i.descendant_count } : FindEntry))).dedup)

/-- The match predicate of `AST.src` (`src/ast.py`, lines 90-105): a
declarator with a direct child (of any type) whose name contains the query. -/
def srcMatch (recs : List NodeRecord) (function_name : String)
    (i : NodeRecord) : Bool :=
  isDeclarator112 i &&
  recs.any (fun n =>
    n.parent_id == some i.node_id && n.file_path == i.file_path &&
    nameLikeContains n function_name)

/-- The `LEFT JOIN ... p ON p.node_id = i.parent_id AND
p.file_path = i.file_path` of `AST.src`: the first parent row, if any. -/
def parentRow (recs : List NodeRecord) (i : NodeRecord) : Option NodeRecord :=
  recs.find? (fun p => some p.node_id == i.parent_id && p.file_path == i.file_path)

/-- `COALESCE(p.start_line, i.start_line), COALESCE(p.end_line, i.end_line)`:
the enclosing parent row's span when one exists, the declarator's own span
otherwise. -/
def spanOf (recs : List NodeRecord) (i : NodeRecord) : Nat × Nat :=
  match parentRow recs i with
  | some p => (p.start_line, p.end_line)
  | none => (i.start_line, i.end_line)

/-- Python `lines[start-1:end]`: the 1-based inclusive line range. -/
def linesRange (ls : List String) (s e : Nat) : List String :=
  (ls.drop (s - 1)).take (e - (s - 1))

/-- `AST.src(function_name)` (`src/ast.py`, lines 88-112): the first matching
declarator (`LIMIT 1`), its coalesced span, and the literal text of that
range read from the source file. `fileLines` maps a path to the lines
(with terminators) of the file on disk, which `AST.src` reads directly. -/
def src (recs : List NodeRecord) (fileLines : String → List String)
    (function_name : String) : Option String :=
  match recs.find? (srcMatch recs function_name) with
  | none => none
  | some i =>
    let sp := spanOf recs i
    some (String.join (linesRange (fileLines i.file_path) sp.1 sp.2))

/-- `AST.complex`'s qualifying filter: `type = 'function_declarator' AND
semantic_type = 112 AND descendant_count >= threshold`. -/
def complexDecl (threshold : Nat) (r : NodeRecord) : Bool :=
  r.type == "function_declarator" && r.semantic_type == some 112 &&
  decide (threshold ≤ r.descendant_count)

/-- Direct children of a row: `n.parent_id = r.node_id AND
n.file_path = r.file_path`. -/
def childRows (recs : List NodeRecord) (r : NodeRecord) : List NodeRecord :=
  recs.filter (fun n =>
    n.parent_id == some r.node_id && n.file_path == r.file_path)

/-- One output row of `AST.complex`: `file_path, name, descendant_count`. -/
structure ComplexEntry where
  file_path : String
  name : Option String
  descendant_count : Nat
deriving DecidableEq, Repr

/-- `ORDER BY descendant_count DESC` for `AST.complex` rows. -/
def complexGE (a b : ComplexEntry) : Prop :=
  b.descendant_count ≤ a.descendant_count

instance : DecidableRel complexGE := fun a b =>
  inferInstanceAs (Decidable (b.descendant_count ≤ a.descendant_count))

instance : IsTotal ComplexEntry complexGE := ⟨fun a b => (Nat.le_total _ _).symm⟩

instance : IsTrans ComplexEntry complexGE :=
  ⟨fun _ _ _ h1 h2 => Nat.le_trans h2 h1⟩

/-- The `FROM f JOIN ... n` rows of `AST.complex`: each qualifying
declarator paired with each of its direct children. -/
def complexJoined (recs : List NodeRecord) (threshold : Nat) :
    List (NodeRecord × NodeRecord) :=
  (recs.filter (complexDecl threshold)).flatMap
    (fun r => (childRows recs r).map (fun n => (r, n)))

/-- The output row of one `GROUP BY (file_path, descendant_count)` group of
`AST.complex`: its name is the SQL `MAX` over the identifier-kind children
joined to the group's declarators. -/
def complexEntryFor (recs : List NodeRecord) (threshold : Nat)
    (k : String × Nat) : ComplexEntry :=
  { file_path := k.1,
    name := sqlMax (((complexJoined recs threshold).filter (fun rn =>
      rn.1.file_path == k.1 && rn.1.descendant_count == k.2)).filterMap
      (fun rn => if isIdentKind rn.2 then rn.2.name else none)),
    descendant_count := k.2 }

/-- `AST.complex(threshold)` (`src/ast.py`, lines 148-168): qualifying
declarators joined to their direct children, grouped by
`(file_path, descendant_count)`, each group named by the SQL `MAX` over the
identifier-kind children of its declarators, ordered by `descendant_count`
descending. -/
def complexQ (recs : List NodeRecord) (threshold : Nat) : List ComplexEntry :=
  List.insertionSort complexGE
    ((((complexJoined recs threshold).map
      (fun rn => (rn.1.file_path, rn.1.descendant_count))).dedup).map
      (complexEntryFor recs threshold))

/-- One output row of `AST.search`: `file_path, name, type, start_line`. -/
structure SearchEntry where
  file_path : String
  name : Option String
  type : String
  start_line : Nat
deriving DecidableEq, Repr

/-- `ORDER BY file_path, start_line` for `AST.search` rows. -/
def searchLE (a b : SearchEntry) : Prop :=
  a.file_path < b.file_path ∨
    (a.file_path = b.file_path ∧ a.start_line ≤ b.start_line)

instance : DecidableRel searchLE := fun a b =>
  inferInstanceAs (Decidable (_ ∨ _))

instance : IsTotal SearchEntry searchLE where
  total a b := by
    rcases lt_trichotomy a.file_path b.file_path with h | h | h
    · exact Or.inl (Or.inl h)
    · rcases Nat.le_total a.start_line b.start_line with h2 | h2
      · exact Or.inl (Or.inr ⟨h, h2⟩)
      · exact Or.inr (Or.inr ⟨h.symm, h2⟩)
    · exact Or.inr (Or.inl h)

instance : IsTrans SearchEntry searchLE where
  trans a b c hab hbc := by
    rcases hab with h1 | ⟨e1, l1⟩
    · rcases hbc with h2 | ⟨e2, _⟩
      · exact Or.inl (h1.trans h2)
      · exact Or.inl (e2 ▸ h1)
    · rcases hbc with h2 | ⟨e2, l2⟩
      · exact Or.inl (e1 ▸ h2)
      · exact Or.inr ⟨e1.trans e2, l1.trans l2⟩

/-- The node types admitted by `AST.search` (`src/ast.py`, line 121). -/
def searchTypes : List String :=
  ["function_declarator", "function_definition", "class_definition",
   "struct_declaration", "variable_declaration"]

/-- `AST.search(term)` (`src/ast.py`, lines 114-129): names containing the
term within the admitted categories, ordered by `(file_path, start_line)`,
capped at 100 rows. -/
def searchQ (recs : List NodeRecord) (term : String) : List SearchEntry :=
  (List.insertionSort searchLE
    ((recs.filter (fun r =>
      nameLikeContains r term && searchTypes.contains r.type)).map (fun r =>
      ({ file_path := r.file_path, name := r.name, type := r.type,
         start_line := r.start_line } : SearchEntry)))).take 100

/-- One output row of `AST.classes`. -/
structure ClassEntry where
  file_path : String
  name : Option String
  start_line : Nat
  end_line : Nat
  descendant_count : Nat
deriving DecidableEq, Repr

/-- The node types admitted by `AST.classes` (`src/ast.py`, line 137). -/
def classTypes : List String :=
  ["class_definition", "class_declaration", "struct_declaration",
   "interface_declaration"]

/-- `ORDER BY file_path, start_line` for `AST.classes` rows. -/
def classLE (a b : ClassEntry) : Prop :=
  a.file_path < b.file_path ∨
    (a.file_path = b.file_path ∧ a.start_line ≤ b.start_line)

instance : DecidableRel classLE := fun a b =>
  inferInstanceAs (Decidable (_ ∨ _))

instance : IsTotal ClassEntry classLE where
  total a b := by
    rcases lt_trichotomy a.file_path b.file_path with h | h | h
    · exact Or.inl (Or.inl h)
    · rcases Nat.le_total a.start_line b.start_line with h2 | h2
      · exact Or.inl (Or.inr ⟨h, h2⟩)
      · exact Or.inr (Or.inr ⟨h.symm, h2⟩)
    · exact Or.inr (Or.inl h)

instance : IsTrans ClassEntry classLE where
  trans a b c hab hbc := by
    rcases hab with h1 | ⟨e1, l1⟩
    · rcases hbc with h2 | ⟨e2, _⟩
      · exact Or.inl (h1.trans h2)
      · exact Or.inl (e2 ▸ h1)
    · rcases hbc with h2 | ⟨e2, l2⟩
      · exact Or.inl (e1 ▸ h2)
      · exact Or.inr ⟨e1.trans e2, l1.trans l2⟩

/-- `AST.classes(term)` (`src/ast.py`, lines 131-146). -/
def classesQ (recs : List NodeRecord) (term : String) : List ClassEntry :=
  (List.insertionSort classLE
    ((recs.filter (fun r =>
      classTypes.contains r.type && nameLikeContains r term)).map (fun r =>
      ({ file_path := r.file_path, name := r.name, start_line := r.start_line,
         end_line := r.end_line,
         descendant_count := r.descendant_count } : ClassEntry)))).take 100

/-- Failure conditions surfaced by the query entry points: the dedicated
missing-index error raised by `AST.funcs`, or a generic I/O failure from the
underlying parquet reader. -/
inductive QueryError where
  | missingIndex (message : String)
  | io (message : String)
deriving DecidableEq, Repr

/-- True exactly on the dedicated missing-index error. -/
def isMissingIndexError {α : Type} : Except QueryError α → Bool
  | Except.error (QueryError.missingIndex _) => true
  | _ => false

/-- The message of `AST.funcs`'s `FileNotFoundError`: names the expected
index file and the exact build invocation (`src/ast.py`, line 41). -/
def missingIndexMessage (lang index : String) : String :=
  "No index found: " ++ index ++ ". Create with ast.index('" ++ lang ++
    "', pattern)"

/-- The generic failure message of the underlying reader for a pattern that
matches no file. -/
def ioMessage (pat : String) : String :=
  "IO Error: No files found that match the pattern " ++ pat

/-- The external `read_parquet` collaborator applied to an index path or
pattern: returns the stored records, or fails with a generic I/O error when
no file matches. `store` maps each index path/pattern to its records. -/
def readParquet (store : String → Option (List NodeRecord)) (pat : String) :
    Except QueryError (List NodeRecord) :=
  match store pat with
  | some recs => Except.ok recs
  | none => Except.error (QueryError.io (ioMessage pat))

/-- The index pattern chosen by the cross-index queries: the language's index
file when a language is given, the `.index-*.parquet` wildcard otherwise. -/
def indexPattern (lang : Option String) : String :=
  match lang with
  | some l => indexPathFor l
  | none => ".index-*.parquet"

/-- Entry point of `AST.funcs` (`src/ast.py`, lines 34-57): derives the
language from the file extension and checks `os.path.exists` on the index,
raising the dedicated missing-index error before any read. -/
def funcsRun (store : String → Option (List NodeRecord)) (file_path : String) :
    Except QueryError (List FuncEntry) :=
  let lang := extOf file_path
  let index := indexPathFor lang
  match store index with
  | none => Except.error (QueryError.missingIndex (missingIndexMessage lang index))
  | some recs => Except.ok (funcs recs file_path)

/-- Entry point of `AST.find`: reads the index pattern directly, with no
existence check (`src/ast.py`, lines 64-86). -/
def findRun (store : String → Option (List NodeRecord))
    (function_name : String) (lang : Option String) :
    Except QueryError (List FindEntry) :=
  (readParquet store (indexPattern lang)).map (fun recs => findQ recs function_name)

/-- Entry point of `AST.src`: reads the wildcard pattern directly, with no
existence check (`src/ast.py`, lines 88-112). -/
def srcRun (store : String → Option (List NodeRecord))
    (fileLines : String → List String) (function_name : String) :
    Except QueryError (Option String) :=
  (readParquet store ".index-*.parquet").map
    (fun recs => src recs fileLines function_name)

/-- Entry point of `AST.search`: no existence check (`src/ast.py`, 114-129). -/
def searchRun (store : String → Option (List NodeRecord)) (term : String)
    (lang : Option String) : Except QueryError (List SearchEntry) :=
  (readParquet store (indexPattern lang)).map (fun recs => searchQ recs term)

/-- Entry point of `AST.classes`: no existence check (`src/ast.py`, 131-146). -/
def classesRun (store : String → Option (List NodeRecord)) (term : String)
    (lang : Option String) : Except QueryError (List ClassEntry) :=
  (readParquet store (indexPattern lang)).map (fun recs => classesQ recs term)

/-- Entry point of `AST.complex`: reads the wildcard pattern directly, with
no existence check (`src/ast.py`, lines 148-168). -/
def complexRun (store : String → Option (List NodeRecord)) (threshold : Nat) :
    Except QueryError (List ComplexEntry) :=
  (readParquet store ".index-*.parquet").map (fun recs => complexQ recs threshold)

/-- The `semantic_type_name` SQL macro (`src/scripts/
migrate_tests_to_semantic_types.py`, lines 139-188): the named refinement of
each semantic code. -/
def semantic_type_name : Nat → String
  | 0 => "PARSER_CONSTRUCT"
  | 4 => "PARSER_DELIMITER"
  | 8 => "PARSER_WHITESPACE"
  | 12 => "PARSER_ERROR"
  | 32 => "EXECUTION_STATEMENT"
  | 36 => "EXECUTION_DECLARATION"
  | 40 => "EXECUTION_INVOCATION"
  | 44 => "EXECUTION_MUTATION"
  | 48 => "DEFINITION_MODULE"
  | 52 => "DEFINITION_FUNCTION"
  | 56 => "DEFINITION_CLASS"
  | 60 => "DEFINITION_VARIABLE"
  | 64 => "FLOW_CONDITIONAL"
  | 68 => "FLOW_LOOP"
  | 72 => "FLOW_JUMP"
  | 76 => "FLOW_EXCEPTION"
  | 80 => "FLOW_SYNC"
  | 96 => "COMPUTATION_CALL"
  | 100 => "COMPUTATION_ACCESS"
  | 104 => "COMPUTATION_CAST"
  | 108 => "COMPUTATION_SLICE"
  | 128 => "LITERAL_NUMBER"
  | 129 => "LITERAL_STRING"
  | 136 => "LITERAL_ATOMIC"
  | 140 => "LITERAL_STRUCTURED"
  | 160 => "OPERATOR_ARITHMETIC"
  | 164 => "OPERATOR_LOGICAL"
  | 168 => "OPERATOR_COMPARISON"
  | 172 => "OPERATOR_ASSIGNMENT"
  | 192 => "IDENTIFIER_COMMON"
  | 196 => "IDENTIFIER_TYPE"
  | 200 => "IDENTIFIER_ANNOTATION"
  | 204 => "IDENTIFIER_SPECIAL"
  | 240 => "TYPE_PRIMITIVE"
  | 241 => "TYPE_OBJECT"
  | 244 => "TYPE_PARAMETERIZED"
  | 248 => "TYPE_ANNOTATION"
  | v => "UNKNOWN_" ++ toString v

/-- The `semantic_super_kind` SQL macro: `(semantic_type >> 6) & 3`. -/
def semantic_super_kind (v : Nat) : String :=
  match (v >>> 6) &&& 3 with
  | 0 => "PARSER"
  | 1 => "SEMANTIC"
  | 2 => "SYNTAX"
  | 3 => "TYPE"
  | _ => "UNKNOWN"

/-- The `semantic_kind` SQL macro (`src/scripts/
migrate_tests_to_semantic_types.py`, lines 199-211): the decoder
`(semantic_type >> 4) & 15` mapped to a kind name. -/
def semantic_kind (v : Nat) : String :=
  match (v >>> 4) &&& 15 with
  | 0 => "PARSER"
  | 2 => "EXECUTION"
  | 3 => "DEFINITION"
  | 4 => "FLOW_CONTROL"
  | 6 => "COMPUTATION"
  | 8 => "LITERAL"
  | 10 => "OPERATOR"
  | 12 => "IDENTIFIER"
  | 15 => "TYPE"
  | _ => "UNKNOWN"

/-- The claimed write discipline for a lifecycle operation: no write ever
targets the published index path directly. -/
def scratchOnlyWrites (ops : List FsOp) (published : String) : Bool :=
  ops.all (fun op =>
    match op with
    | FsOp.write p _ => p != published
    | FsOp.rename _ _ => true)

/-- Shorthand for building concrete node records in the examples below. -/
def mkRec (fp : String) (nid : Nat) (pid : Option Nat) (ty : String)
    (st : Option Nat) (nm : Option String) (sl el dc : Nat) : NodeRecord :=
  { file_path := fp, language := "cpp", node_id := nid, parent_id := pid,
    type := ty, semantic_type := st, name := nm, start_line := sl,
    end_line := el, sibling_index := 0, children_count := 0,
    descendant_count := dc, peek := none }

/-- A root record of `a.py` as first indexed. -/
def recA_old : NodeRecord := mkRec "a.py" 0 none "module" (some 48) none 1 9 2

/-- A root record of `a.py` after the file changed on disk: same path and
node id, different subtree size. -/
def recA_new : NodeRecord := mkRec "a.py" 0 none "module" (some 48) none 1 12 5

/-- A `function_definition` row with NULL semantic type. -/
def recFD : NodeRecord :=
  mkRec "b.cpp" 3 (some 0) "function_definition" none none 2 8 10

/-- Two equally sized declarators in one file, each with an identifier
child, for exercising `AST.complex`'s grouping. -/
def recs6 : List NodeRecord :=
  [mkRec "a.c" 1 (some 0) "function_declarator" (some 112) none 2 2 3,
   mkRec "a.c" 2 (some 1) "identifier" (some 192) (some "f") 2 2 0,
   mkRec "a.c" 4 (some 0) "function_declarator" (some 112) none 5 5 3,
   mkRec "a.c" 5 (some 4) "identifier" (some 192) (some "g") 5 5 0]

/-- A store with no index file at all. -/
def store0 : String → Option (List NodeRecord) := fun _ => none

/-- A root record of a genuinely new file `b.py`. -/
def recB : NodeRecord := mkRec "b.py" 0 none "module" (some 48) none 1 4 1

/-- A parse collaborator that always yields the old `a.py` records. -/
def parse0 : String → List NodeRecord := fun _ => [recA_old]

/-- A named declarator of `foo.py`. -/
def rec5decl : NodeRecord :=
  mkRec "foo.py" 1 (some 0) "function_declarator" (some 112) none 2 4 7

/-- The identifier child carrying the declarator's name. -/
def rec5ident : NodeRecord :=
  mkRec "foo.py" 2 (some 1) "identifier" (some 192) (some "add") 2 2 0

/-- A declarator with no identifier child: no resolvable name. -/
def rec5anon : NodeRecord :=
  mkRec "foo.py" 3 (some 0) "function_declarator" (some 112) none 6 8 5

/-- A small index of `foo.py`: one named declarator, one nameless one. -/
def recs5 : List NodeRecord := [rec5decl, rec5ident, rec5anon]

/-- A declarator of subtree size 7 in `a.c`. -/
def rec6big : NodeRecord :=
  mkRec "a.c" 1 (some 0) "function_declarator" (some 112) none 2 2 7

/-- A declarator of subtree size 3 in `a.c`. -/
def rec6small : NodeRecord :=
  mkRec "a.c" 4 (some 0) "function_declarator" (some 112) none 5 5 3

/-- Two functions of differing subtree sizes, each with an identifier child. -/
def recs6b : List NodeRecord :=
  [rec6big,
   mkRec "a.c" 2 (some 1) "identifier" (some 192) (some "f") 2 2 0,
   rec6small,
   mkRec "a.c" 5 (some 4) "identifier" (some 192) (some "g") 5 5 0]

/-- The enclosing `function_definition` row of `foo.py`, spanning lines 1-5. -/
def rec7def : NodeRecord :=
  mkRec "foo.py" 0 none "function_definition" (some 52) none 1 5 9

/-- The declarator under `rec7def`, spanning only line 2. -/
def rec7decl : NodeRecord :=
  mkRec "foo.py" 1 (some 0) "function_declarator" (some 112) none 2 2 4

/-- The identifier child naming `rec7decl`. -/
def rec7ident : NodeRecord :=
  mkRec "foo.py" 2 (some 1) "identifier" (some 192) (some "add") 2 2 0

/-- An index where the matching declarator has an enclosing definition. -/
def recs7 : List NodeRecord := [rec7decl, rec7def, rec7ident]

/-- The literal lines of `foo.py` on disk. -/
def fileLines7 : String → List String := fun p =>
  if p = "foo.py" then
    ["line1\n", "line2\n", "line3\n", "line4\n", "line5\n"]
  else []

/-- A root record of `dup.py`. -/
def recRoot10 : NodeRecord := mkRec "dup.py" 0 none "module" (some 48) none 1 3 1

/-- A parse collaborator under which patterns `a` and `b` both match
`dup.py`. -/
def parse10 : String → List NodeRecord := fun p =>
  if p = "a" ∨ p = "b" then [recRoot10] else []

/-! ### Helper lemmas -/

theorem append_tmp_ne (s : String) : s ++ ".tmp" ≠ s := by
  intro h
  have hlen : (s ++ ".tmp").length = s.length := congrArg String.length h
  rw [String.length_append] at hlen
  have h4 : (".tmp" : String).length = 4 := rfl
  omega

theorem sqlMax_mem : ∀ {l : List String} {m : String}, sqlMax l = some m → m ∈ l := by
  intro l
  induction l with
  | nil => intro m h; simp [sqlMax] at h
  | cons a t ih =>
    intro m h
    simp only [sqlMax] at h
    cases htl : sqlMax t with
    | none => rw [htl] at h; simp at h; simp [h]
    | some b =>
      rw [htl] at h
      simp at h
      rcases max_choice a b with hm | hm
    <;> rw [← h, hm]
      · exact List.mem_cons_self a t
      · exact List.mem_cons_of_mem a (ih htl)

theorem mem_complexJoined {recs : List NodeRecord} {t : Nat}
    {rn : NodeRecord × NodeRecord} :
    rn ∈ complexJoined recs t ↔
      rn.1 ∈ recs ∧ complexDecl t rn.1 = true ∧ rn.2 ∈ childRows recs rn.1 := by
  rcases rn with ⟨r, n⟩
  simp only [complexJoined, List.mem_flatMap, List.mem_map, List.mem_filter]
  constructor
  · rintro ⟨a, ⟨ha, hd⟩, n', hn', heq⟩
    cases heq
    exact ⟨ha, hd, hn'⟩
  · rintro ⟨h1, h2, h3⟩
    exact ⟨r, ⟨h1, h2⟩, n, h3, rfl⟩

theorem strContains_infix (pre post : String) {hay needle : String}
    (h : pre ++ needle ++ post = hay) : strContains hay needle = true := by
  subst h
  apply decide_eq_true
  refine ⟨pre.data, post.data, ?_⟩
  rw [String.data_append, String.data_append]

/-! ### Claim theorems -/

/-- C2: `update_index` decides "no updates" from new files alone. Here the
only matched file `a.py` already exists in the index but its fresh parse
differs from the stored records (the file changed on disk), yet the code
returns `no_updates` and performs no file-system operation, leaving the
stale records published — contradicting its own docstring ("Update an
existing index with new or modified files") and the spec. -/
theorem update_ignores_changed_file :
    (update_index [recA_old] [recA_new] ".index-py.parquet").status =
      "no_updates" ∧
    (update_index [recA_old] [recA_new] ".index-py.parquet").ops = [] ∧
    recA_new.file_path = recA_old.file_path ∧
    recA_new ≠ recA_old := by decide

/-- C3 counterexample: `AST.index` performs a single `COPY` straight to the
published index path — no scratch file and no rename — so builds mutate the
published index file in place. -/
theorem index_writes_published_in_place :
    astIndexOps "py" parse0 ["*.py"] =
      Except.ok [FsOp.write (indexPathFor "py") [recA_old]] ∧
    scratchOnlyWrites [FsOp.write (indexPathFor "py") [recA_old]]
      (indexPathFor "py") = false := by
  exact ⟨rfl, by decide⟩

/-- C4 counterexample: on an index holding a single `function_definition` row
with NULL semantic type, `AST.stats` reports one function while the count of
records with `type = 'function_declarator' AND semantic_type = 112` (the
count reported by `get_index_stats`) is zero. -/
theorem ast_stats_function_count_differs :
    astStatsFunctions [recFD] = 1 ∧
    (get_index_stats [recFD]).total_functions = 0 ∧
    astStatsFunctions [recFD] ≠ (get_index_stats [recFD]).total_functions := by
  decide

/-- C6 counterexample: `recs6` holds two qualifying declarators in the same
file with equal `descendant_count`; `AST.complex` groups by
`(file_path, descendant_count)` and returns a single row for them, so it
does not return every qualifying declarator. -/
theorem complex_collapses_equal_sized :
    (recs6.filter (complexDecl 0)).length = 2 ∧
    (complexQ recs6 0).length = 1 := by decide

/-- C8 counterexample: `AST.find` scoped to language `py` with no
`.index-py.parquet` present surfaces the underlying reader's generic I/O
failure, not the dedicated missing-index condition. -/
theorem find_missing_index_is_generic_io :
    findRun store0 "add" (some "py") =
      Except.error (QueryError.io (ioMessage ".index-py.parquet")) ∧
    isMissingIndexError (findRun store0 "add" (some "py")) = false := by
  exact ⟨rfl, rfl⟩

/-- C9 counterexample: code 80 lies inside the spec's FLOW_CONTROL band
[64, 95] — and `semantic_type_name` even names it FLOW_SYNC — yet the kind
decoder `(value >> 4) & 15` sends it to UNKNOWN, because a nibble band is
only 16 wide. -/
theorem semantic_kind_80_unknown :
    semantic_kind 80 = "UNKNOWN" ∧
    semantic_kind 80 ≠ "FLOW_CONTROL" ∧
    semantic_type_name 80 = "FLOW_SYNC" := by decide

/-- C9 (amended): the decoder assigns each 16-wide nibble band its kind:
codes 0-15 PARSER, 32-47 EXECUTION, 48-63 DEFINITION, 64-79 FLOW_CONTROL,
96-111 COMPUTATION, 128-143 LITERAL, 160-175 OPERATOR, 192-207 IDENTIFIER,
240-255 TYPE — while 80-95 (the rest of the spec's FLOW_CONTROL range)
decode to UNKNOWN — and the DEFINITION refinements spaced 4 apart are
48 MODULE, 52 FUNCTION, 56 CLASS, 60 VARIABLE. -/
theorem semantic_kind_bands (v : Nat) (h : v < 256) :
    ((v < 16 → semantic_kind v = "PARSER") ∧
     (32 ≤ v ∧ v < 48 → semantic_kind v = "EXECUTION") ∧
     (48 ≤ v ∧ v < 64 → semantic_kind v = "DEFINITION") ∧
     (64 ≤ v ∧ v < 80 → semantic_kind v = "FLOW_CONTROL") ∧
     (80 ≤ v ∧ v < 96 → semantic_kind v = "UNKNOWN") ∧
     (96 ≤ v ∧ v < 112 → semantic_kind v = "COMPUTATION") ∧
     (128 ≤ v ∧ v < 144 → semantic_kind v = "LITERAL") ∧
     (160 ≤ v ∧ v < 176 → semantic_kind v = "OPERATOR") ∧
     (192 ≤ v ∧ v < 208 → semantic_kind v = "IDENTIFIER") ∧
     (240 ≤ v → semantic_kind v = "TYPE")) ∧
    (semantic_type_name 48 = "DEFINITION_MODULE" ∧
     semantic_type_name 52 = "DEFINITION_FUNCTION" ∧
     semantic_type_name 56 = "DEFINITION_CLASS" ∧
     semantic_type_name 60 = "DEFINITION_VARIABLE") := by
  have hsr : v >>> 4 = v / 16 := by
    rw [Nat.shiftRight_eq_div_pow]
  constructor
  · refine ⟨?_, ?_, ?_, ?_, ?_, ?_, ?_, ?_, ?_, ?_⟩
      <;> intro hb
    · have hq : v / 16 = 0 := by omega
      unfold semantic_kind
      rw [hsr, hq]
    · have hq : v / 16 = 2 := by omega
      unfold semantic_kind
      rw [hsr, hq]
    · have hq : v / 16 = 3 := by omega
      unfold semantic_kind
      rw [hsr, hq]
    · have hq : v / 16 = 4 := by omega
      unfold semantic_kind
      rw [hsr, hq]
    · have hq : v / 16 = 5 := by omega
      unfold semantic_kind
      rw [hsr, hq]
    · have hq : v / 16 = 6 := by omega
      unfold semantic_kind
      rw [hsr, hq]
    · have hq : v / 16 = 8 := by omega
      unfold semantic_kind
      rw [hsr, hq]
    · have hq : v / 16 = 10 := by omega
      unfold semantic_kind
      rw [hsr, hq]
    · have hq : v / 16 = 12 := by omega
      unfold semantic_kind
      rw [hsr, hq]
    · have hq : v / 16 = 15 := by omega
      unfold semantic_kind
      rw [hsr, hq]
  · decide

/-- C9 witness: the amended band theorem evaluated at code 70, a
FLOW_CONTROL code, together with the FUNCTION refinement. -/
theorem semantic_kind_bands_witness :
    semantic_kind 70 = "FLOW_CONTROL" ∧
    semantic_type_name 52 = "DEFINITION_FUNCTION" := by
  have h := semantic_kind_bands 70 (by decide)
  exact ⟨h.1.2.2.2.1 ⟨by decide, by decide⟩, h.2.2.1⟩

/-- C1: when `update_index` reports an update, the published record set
afterwards is exactly the union of the existing records of files not among
the freshly parsed paths and the fresh records; every result record of a
re-parsed file stems from the fresh parse and every other from the existing
index (no mixing of parse generations within a file), and the records of
untouched files are carried forward unchanged. -/
theorem update_merge_spec (existing fresh : List NodeRecord)
    (index_path : String) (fs : String → Option (List NodeRecord))
    (h : newFileCount existing fresh ≠ 0) :
    (update_index existing fresh index_path).status = "updated" ∧
    applyFsOps fs (update_index existing fresh index_path).ops index_path =
      some (mergedRecords existing fresh) ∧
    (∀ r : NodeRecord, r ∈ mergedRecords existing fresh ↔
      ((r ∈ existing ∧ r.file_path ∉ fresh.map (fun q => q.file_path)) ∨
        r ∈ fresh)) ∧
    (∀ r ∈ mergedRecords existing fresh,
      (r.file_path ∈ fresh.map (fun q => q.file_path) → r ∈ fresh) ∧
      (r.file_path ∉ fresh.map (fun q => q.file_path) → r ∈ existing)) ∧
    (∀ F, F ∉ fresh.map (fun q => q.file_path) →
      (mergedRecords existing fresh).filter (fun r => r.file_path == F) =
        existing.filter (fun r => r.file_path == F)) := by
  have htmp : index_path ≠ index_path ++ ".tmp" := (append_tmp_ne index_path).symm
  have hmem : ∀ r : NodeRecord, r ∈ mergedRecords existing fresh ↔
      ((r ∈ existing ∧ r.file_path ∉ fresh.map (fun q => q.file_path)) ∨
        r ∈ fresh) := by
    intro r
    simp [mergedRecords, List.mem_append, List.mem_filter]
  refine ⟨?_, ?_, hmem, ?_, ?_⟩
  · simp [update_index, if_neg h]
  · simp [update_index, if_neg h, applyFsOps, applyFsOp, htmp]
  · intro r hr
    constructor
    · intro hp
      rcases (hmem r).mp hr with ⟨_, hnot⟩ | hfr
      · exact absurd hp hnot
      · exact hfr
    · intro hp
      rcases (hmem r).mp hr with ⟨he, _⟩ | hfr
      · exact he
      · exact absurd (List.mem_map.mpr ⟨r, hfr, rfl⟩) hp
  · intro F hF
    rw [mergedRecords, List.filter_append]
    have h2 : fresh.filter (fun r => r.file_path == F) = [] := by
      rw [List.filter_eq_nil_iff]
      intro a ha hcontra
      exact hF (List.mem_map.mpr ⟨a, ha, by simpa using hcontra⟩)
    rw [h2, List.append_nil, List.filter_filter]
    refine List.filter_congr ?_
    intro a _
    by_cases hfa : a.file_path = F
    · subst hfa
      simp [hF]
    · simp [hfa]

/-- C1 witness: the merge evaluated where the fresh parse adds the new file
`b.py` to an index holding only `a.py`. -/
theorem update_merge_spec_witness :
    applyFsOps store0 (update_index [recA_old] [recB] ".index-py.parquet").ops
      ".index-py.parquet" = some (mergedRecords [recA_old] [recB]) :=
  (update_merge_spec [recA_old] [recB] ".index-py.parquet" store0 (by decide)).2.1

/-- C3 (amended): `update_index` writes only to the scratch path
`{index_path}.tmp` and then renames it onto the published path, so every run
of update that stops before the final rename leaves the published index
untouched, and a no-update run touches nothing; `AST.index` builds, by
contrast, write their result directly to the published index path. -/
theorem update_scratch_then_rename (existing fresh : List NodeRecord)
    (index_path lang : String) (parse : String → List NodeRecord)
    (patterns : List String) (fs : String → Option (List NodeRecord)) :
    scratchOnlyWrites (update_index existing fresh index_path).ops
      index_path = true ∧
    ((update_index existing fresh index_path).status = "no_updates" →
      (update_index existing fresh index_path).ops = []) ∧
    ((update_index existing fresh index_path).status = "updated" →
      (update_index existing fresh index_path).ops =
        [FsOp.write (index_path ++ ".tmp") (mergedRecords existing fresh),
         FsOp.rename (index_path ++ ".tmp") index_path]) ∧
    (∀ k, k < (update_index existing fresh index_path).ops.length →
      applyFsOps fs ((update_index existing fresh index_path).ops.take k)
        index_path = fs index_path) ∧
    (patterns ≠ [] →
      astIndexOps lang parse patterns =
        Except.ok [FsOp.write (indexPathFor lang) (indexRecords parse patterns)]) := by
  have htmp : index_path ≠ index_path ++ ".tmp" := (append_tmp_ne index_path).symm
  refine ⟨?_, ?_, ?_, ?_, ?_⟩
  · by_cases hn : newFileCount existing fresh = 0
    · simp [update_index, hn, scratchOnlyWrites]
    · simp [update_index, hn, scratchOnlyWrites, bne_iff_ne,
        append_tmp_ne index_path]
  · intro hst
    by_cases hn : newFileCount existing fresh = 0
    · simp [update_index, hn]
    · simp [update_index, hn] at hst
  · intro hst
    by_cases hn : newFileCount existing fresh = 0
    · simp [update_index, hn] at hst
    · simp [update_index, hn]
  · intro k hk
    by_cases hn : newFileCount existing fresh = 0
    · simp [update_index, hn] at hk
    · simp only [update_index, if_neg hn] at hk ⊢
      have hk2 : k < 2 := by simpa using hk
      interval_cases k
      · rfl
      · simp [applyFsOps, applyFsOp, htmp]
  · intro hp
    cases patterns with
    | nil => exact absurd rfl hp
    | cons a l => rfl

/-- C3 witness: a run of the update on `a.py`-only index with fresh file
`b.py` that stops after writing the scratch file leaves the published path
unchanged. -/
theorem update_scratch_then_rename_witness :
    applyFsOps store0
      ((update_index [recA_old] [recB] ".index-py.parquet").ops.take 1)
      ".index-py.parquet" = store0 ".index-py.parquet" :=
  (update_scratch_then_rename [recA_old] [recB] ".index-py.parquet" "py"
    parse0 ["*.py"] store0).2.2.2.1 1 (by decide)

/-- C10: the build unions the per-pattern `read_ast` streams with no
deduplication by file: the per-file record count of the persisted stream is
the sum of the per-pattern counts, and a record (in particular a
`parent_id`-null root row) contributed by two patterns occurs at least twice
under its `(file_path, node_id)` key. -/
theorem index_union_no_dedup (parse : String → List NodeRecord)
    (patterns : List String) (p1 p2 : String) (rest : List String)
    (r : NodeRecord) (F : String) :
    indexRecords parse patterns = (patterns.map parse).flatten ∧
    (indexRecords parse patterns).countP (fun q => q.file_path == F) =
      ((patterns.map (fun p =>
        (parse p).countP (fun q => q.file_path == F))).sum) ∧
    (r ∈ parse p1 → r ∈ parse p2 →
      (2 ≤ (indexRecords parse (p1 :: p2 :: rest)).countP
        (fun q => q.file_path == r.file_path && q.node_id == r.node_id)) ∧
      (r.parent_id = none →
        2 ≤ (indexRecords parse (p1 :: p2 :: rest)).countP
          (fun q => q.file_path == r.file_path && q.parent_id == none))) := by
  refine ⟨rfl, ?_, ?_⟩
  · simp only [indexRecords, List.countP_flatten, List.map_map]
    rfl
  · intro h1 h2
    have base : ∀ pr : NodeRecord → Bool, pr r = true →
        2 ≤ (indexRecords parse (p1 :: p2 :: rest)).countP pr := by
      intro pr hpr
      have c1 : 0 < (parse p1).countP pr := List.countP_pos_iff.mpr ⟨r, h1, hpr⟩
      have c2 : 0 < (parse p2).countP pr := List.countP_pos_iff.mpr ⟨r, h2, hpr⟩
      simp only [indexRecords, List.map_cons, List.flatten_cons,
        List.countP_append]
      omega
    refine ⟨base _ (by simp), fun hroot => base _ (by simp [hroot])⟩

/-- C4 (amended): the manager's `get_index_stats` reports as the total
function count exactly the number of records with
`type = 'function_declarator' AND semantic_type = 112`, whereas the function
count of `AST.stats` uses the broader filter
`type IN ('function_declarator','function_definition') AND
(semantic_type = 112 OR semantic_type IS NULL)` and is therefore at least
the declarator-only count. -/
theorem stats_function_counts (recs : List NodeRecord) :
    (get_index_stats recs).total_functions =
      (recs.filter isDeclarator112).length ∧
    (get_index_stats recs).total_nodes = recs.length ∧
    astStatsFunctions recs = (recs.filter (fun r =>
      (r.type == "function_declarator" || r.type == "function_definition") &&
      (r.semantic_type == some 112 || r.semantic_type == none))).length ∧
    (get_index_stats recs).total_functions ≤ astStatsFunctions recs := by
  refine ⟨rfl, rfl, rfl, ?_⟩
  show (recs.filter (fun r =>
    r.type == "function_declarator" && r.semantic_type == some 112)).length ≤ _
  rw [astStatsFunctions, ← List.countP_eq_length_filter,
    ← List.countP_eq_length_filter]
  refine List.countP_mono_left ?_
  intro r _ hr
  simp only [Bool.and_eq_true, Bool.or_eq_true] at hr ⊢
  exact ⟨Or.inl hr.1, Or.inl hr.2⟩

/-- C5: `AST.funcs(file_path)` returns exactly the declarators of the file
(`type = 'function_declarator' ∧ semantic_type = 112`) whose name resolves
from a direct identifier-kind child in the same file, ordered by
`start_line` ascending, reporting the declarator's own `descendant_count`
as complexity; every returned name is carried by an actual
identifier/qualified_identifier child of a declarator, and nodes of
declarators without resolvable names still count toward the raw node totals
of stats. -/
theorem funcs_spec (recs : List NodeRecord) (fp : String) :
    (funcs recs fp).Sorted funcLE ∧
    (∀ e : FuncEntry, e ∈ funcs recs fp ↔
      ∃ r, r ∈ recs ∧ r.file_path = fp ∧ isDeclarator112 r = true ∧
        declaratorName recs fp r.node_id = some e.name ∧
        e.start_line = r.start_line ∧ e.end_line = r.end_line ∧
        e.descendant_count = r.descendant_count) ∧
    (∀ e ∈ funcs recs fp, ∃ c, c ∈ recs ∧ c.file_path = fp ∧
      isIdentKind c = true ∧ c.name = some e.name ∧
      ∃ r, r ∈ recs ∧ r.file_path = fp ∧ isDeclarator112 r = true ∧
        c.parent_id = some r.node_id) ∧
    (get_index_stats recs).total_nodes = recs.length ∧
    astStatsNodes recs = recs.length := by
  have hiff : ∀ e : FuncEntry, e ∈ funcs recs fp ↔
      ∃ r, r ∈ recs ∧ r.file_path = fp ∧ isDeclarator112 r = true ∧
        declaratorName recs fp r.node_id = some e.name ∧
        e.start_line = r.start_line ∧ e.end_line = r.end_line ∧
        e.descendant_count = r.descendant_count := by
    intro e
    rcases e with ⟨en, es, ee, ed⟩
    rw [funcs, List.mem_insertionSort]
    constructor
    · intro he
      rcases List.mem_filterMap.mp he with ⟨g, hg, hge⟩
      rcases Option.map_eq_some'.mp hge with ⟨n, hn, hne⟩
      rcases List.mem_map.mp (List.mem_dedup.mp hg) with ⟨r, hr, hgr⟩
      rcases List.mem_filter.mp hr with ⟨hrmem, hcond⟩
      simp only [Bool.and_eq_true, beq_iff_eq] at hcond
      subst hgr
      cases hne
      exact ⟨r, hrmem, hcond.1, hcond.2, hn, rfl, rfl, rfl⟩
    · rintro ⟨r, hrmem, hfp, hdecl, hname, hs, he', hd⟩
      apply List.mem_filterMap.mpr
      refine ⟨declGroupOf r, ?_, ?_⟩
      · exact List.mem_dedup.mpr (List.mem_map.mpr
          ⟨r, List.mem_filter.mpr ⟨hrmem, by simp [hfp, hdecl]⟩, rfl⟩)
      · show (declaratorName recs fp r.node_id).map _ = _
        rw [hname, Option.map_some']
        subst hs he' hd
        rfl
  refine ⟨?_, hiff, ?_, rfl, rfl⟩
  · rw [funcs]
    exact List.sorted_insertionSort funcLE _
  · intro e he
    rcases (hiff e).mp he with ⟨r, hrmem, hfp, hdecl, hname, _, _, _⟩
    have hmem := sqlMax_mem hname
    rcases List.mem_filterMap.mp hmem with ⟨c, hc, hcname⟩
    rcases List.mem_filter.mp hc with ⟨hcmem, hcond⟩
    simp only [Bool.and_eq_true, beq_iff_eq] at hcond
    exact ⟨c, hcmem, hcond.1.2, hcond.2, hcname,
      r, hrmem, hfp, hdecl, hcond.1.1⟩

/-- C5 witness: on `recs5`, the named declarator is returned with its own
subtree size as complexity (and the nameless one is not it). -/
theorem funcs_spec_witness :
    ({ name := "add", start_line := 2, end_line := 4,
       descendant_count := 7 } : FuncEntry) ∈ funcs recs5 "foo.py" :=
  ((funcs_spec recs5 "foo.py").2.1 _).mpr
    ⟨rec5decl, by decide, rfl, by decide, by decide, rfl, rfl, rfl⟩

/-- C10 witness: under `parse10`, patterns `a` and `b` both match `dup.py`,
and the built stream holds its root row (and its `(file_path, node_id)`
key) twice. -/
theorem index_union_no_dedup_witness :
    2 ≤ (indexRecords parse10 ["a", "b"]).countP
      (fun q => q.file_path == recRoot10.file_path && q.parent_id == none) :=
  ((index_union_no_dedup parse10 ["a", "b"] "a" "b" [] recRoot10
    "dup.py").2.2 (by decide) (by decide)).2 rfl

/-- C6 (amended): `AST.complex(threshold)` returns one row per distinct
`(file_path, descendant_count)` pair among the qualifying declarators
(`type = 'function_declarator' ∧ semantic_type = 112 ∧ descendant_count ≥
threshold`) that have at least one child row, ordered by `descendant_count`
descending, with each reported name carried by an actual identifier-kind
child of a qualifying declarator of the group; in particular two functions
of differing subtree sizes (each with a child row) are both returned, the
structurally larger one first. -/
theorem complex_spec (recs : List NodeRecord) (t : Nat) :
    (complexQ recs t).Sorted complexGE ∧
    (∀ e ∈ complexQ recs t, ∃ r, r ∈ recs ∧ complexDecl t r = true ∧
      childRows recs r ≠ [] ∧ e.file_path = r.file_path ∧
      e.descendant_count = r.descendant_count) ∧
    (∀ r, r ∈ recs → complexDecl t r = true → childRows recs r ≠ [] →
      ∃ e ∈ complexQ recs t, e.file_path = r.file_path ∧
        e.descendant_count = r.descendant_count) ∧
    (∀ e ∈ complexQ recs t, ∀ nm, e.name = some nm →
      ∃ rn : NodeRecord × NodeRecord, rn.1 ∈ recs ∧ rn.2 ∈ recs ∧
        complexDecl t rn.1 = true ∧ rn.2.parent_id = some rn.1.node_id ∧
        rn.2.file_path = rn.1.file_path ∧ isIdentKind rn.2 = true ∧
        rn.2.name = some nm ∧ rn.1.file_path = e.file_path ∧
        rn.1.descendant_count = e.descendant_count) := by
  refine ⟨?_, ?_, ?_, ?_⟩
  · rw [complexQ]
    exact List.sorted_insertionSort complexGE _
  · intro e he
    rw [complexQ, List.mem_insertionSort] at he
    rcases List.mem_map.mp he with ⟨k, hk, hke⟩
    rcases List.mem_map.mp (List.mem_dedup.mp hk) with ⟨rn, hrn, hkey⟩
    rcases mem_complexJoined.mp hrn with ⟨h1, h2, h3⟩
    refine ⟨rn.1, h1, h2, List.ne_nil_of_mem h3, ?_, ?_⟩
    · rw [← hke]
      show k.1 = rn.1.file_path
      rw [← hkey]
    · rw [← hke]
      show k.2 = rn.1.descendant_count
      rw [← hkey]
  · intro r hr hd hc
    rcases List.exists_mem_of_ne_nil _ hc with ⟨n, hn⟩
    refine ⟨complexEntryFor recs t (r.file_path, r.descendant_count), ?_, rfl, rfl⟩
    rw [complexQ, List.mem_insertionSort]
    refine List.mem_map.mpr ⟨(r.file_path, r.descendant_count), ?_, rfl⟩
    refine List.mem_dedup.mpr (List.mem_map.mpr ⟨(r, n), ?_, rfl⟩)
    exact mem_complexJoined.mpr ⟨hr, hd, hn⟩
  · intro e he nm hnm
    rw [complexQ, List.mem_insertionSort] at he
    rcases List.mem_map.mp he with ⟨k, hk, hke⟩
    rw [← hke] at hnm
    have hmax : sqlMax (((complexJoined recs t).filter (fun rn =>
        rn.1.file_path == k.1 && rn.1.descendant_count == k.2)).filterMap
        (fun rn => if isIdentKind rn.2 then rn.2.name else none)) =
        some nm := hnm
    have hmem := sqlMax_mem hmax
    rcases List.mem_filterMap.mp hmem with ⟨rn, hrnf, hif⟩
    rcases List.mem_filter.mp hrnf with ⟨hrnj, hcond⟩
    simp only [Bool.and_eq_true, beq_iff_eq] at hcond
    rcases mem_complexJoined.mp hrnj with ⟨h1, h2, h3⟩
    rcases List.mem_filter.mp h3 with ⟨h3mem, h3cond⟩
    simp only [Bool.and_eq_true, beq_iff_eq] at h3cond
    cases hik : isIdentKind rn.2 with
    | false => rw [hik] at hif; simp at hif
    | true =>
      rw [hik] at hif
      simp only [if_true] at hif
      refine ⟨rn, h1, h3mem, h2, h3cond.1, h3cond.2, hik, hif, ?_, ?_⟩
      · rw [← hke]
        exact hcond.1
      · rw [← hke]
        exact hcond.2

/-- C6 witness: on `recs6b`, the larger of two differing-size functions is
among the rows returned at threshold 0. -/
theorem complex_spec_witness :
    ∃ e ∈ complexQ recs6b 0, e.file_path = rec6big.file_path ∧
      e.descendant_count = rec6big.descendant_count :=
  (complex_spec recs6b 0).2.2.1 rec6big (by decide) (by decide) (by decide)

/-- C7: `AST.src(name)` returns `none` exactly when no declarator matches;
otherwise it takes the first match, uses the parent row's line span when
the parent row exists in the index and the declarator's own span otherwise,
and returns the text of the 1-based inclusive line range
`start_line..end_line` read from the literal source file. -/
theorem src_spec (recs : List NodeRecord) (fileLines : String → List String)
    (nm : String) :
    (src recs fileLines nm = none ↔
      recs.find? (srcMatch recs nm) = none) ∧
    (recs.find? (srcMatch recs nm) = none ↔
      ∀ i ∈ recs, srcMatch recs nm i = false) ∧
    (∀ i, recs.find? (srcMatch recs nm) = some i →
      srcMatch recs nm i = true ∧
      src recs fileLines nm = some (String.join
        (linesRange (fileLines i.file_path) (spanOf recs i).1
          (spanOf recs i).2)) ∧
      (parentRow recs i = none →
        spanOf recs i = (i.start_line, i.end_line)) ∧
      (∀ p, parentRow recs i = some p →
        spanOf recs i = (p.start_line, p.end_line) ∧ p ∈ recs ∧
          some p.node_id = i.parent_id ∧ p.file_path = i.file_path)) ∧
    (∀ (ls : List String) (s e : Nat), 1 ≤ s → s ≤ e → e ≤ ls.length →
      (linesRange ls s e).length = e + 1 - s ∧
      ∀ k, k < e + 1 - s → (linesRange ls s e)[k]? = ls[s - 1 + k]?) := by
  refine ⟨?_, ?_, ?_, ?_⟩
  · cases hf : recs.find? (srcMatch recs nm) <;> simp [src, hf]
  · simp [List.find?_eq_none]
  · intro i hf
    refine ⟨List.find?_some hf, by simp [src, hf], ?_, ?_⟩
    · intro hp
      simp [spanOf, hp]
    · intro p hp
      have hcond := List.find?_some hp
      simp only [Bool.and_eq_true, beq_iff_eq] at hcond
      exact ⟨by simp [spanOf, hp], List.mem_of_find?_eq_some hp,
        hcond.1, hcond.2⟩
  · intro ls s e h1 h2 h3
    constructor
    · simp only [linesRange, List.length_take, List.length_drop]
      omega
    · intro k hk
      rw [linesRange, List.getElem?_take, if_pos (by omega),
        List.getElem?_drop]

/-- C7 witness: on `recs7`, the match on `add` is resolved to the enclosing
definition's span (lines 1-5), and the returned text is those five literal
lines of `foo.py`. -/
theorem src_spec_witness :
    src recs7 fileLines7 "add" =
      some "line1\nline2\nline3\nline4\nline5\n" :=
  (((src_spec recs7 fileLines7 "add").2.2.1 rec7decl
    (by decide)).2.1).trans (by decide)

/-- C8 (amended): only `AST.funcs` guards against a missing index file,
raising the dedicated missing-index error whose message names the expected
index file and the exact build invocation; `AST.find`, `AST.src`,
`AST.search`, `AST.classes` and `AST.complex` read the index pattern
directly, so a missing index surfaces as the underlying reader's generic
I/O failure instead. -/
theorem missing_index_reporting
    (store : String → Option (List NodeRecord))
    (fileLines : String → List String)
    (fp nm term lang : String) (t : Nat) :
    (store (indexPathFor (extOf fp)) = none →
      funcsRun store fp = Except.error (QueryError.missingIndex
        (missingIndexMessage (extOf fp) (indexPathFor (extOf fp)))) ∧
      isMissingIndexError (funcsRun store fp) = true) ∧
    (strContains (missingIndexMessage (extOf fp) (indexPathFor (extOf fp)))
      (indexPathFor (extOf fp)) = true ∧
     strContains (missingIndexMessage (extOf fp) (indexPathFor (extOf fp)))
      ("ast.index('" ++ extOf fp ++ "', pattern)") = true) ∧
    (store (indexPathFor lang) = none →
      findRun store nm (some lang) =
        Except.error (QueryError.io (ioMessage (indexPathFor lang))) ∧
      isMissingIndexError (findRun store nm (some lang)) = false ∧
      searchRun store term (some lang) =
        Except.error (QueryError.io (ioMessage (indexPathFor lang))) ∧
      isMissingIndexError (searchRun store term (some lang)) = false ∧
      classesRun store term (some lang) =
        Except.error (QueryError.io (ioMessage (indexPathFor lang))) ∧
      isMissingIndexError (classesRun store term (some lang)) = false) ∧
    (store ".index-*.parquet" = none →
      srcRun store fileLines nm =
        Except.error (QueryError.io (ioMessage ".index-*.parquet")) ∧
      isMissingIndexError (srcRun store fileLines nm) = false ∧
      complexRun store t =
        Except.error (QueryError.io (ioMessage ".index-*.parquet")) ∧
      isMissingIndexError (complexRun store t) = false) := by
  refine ⟨?_, ⟨?_, ?_⟩, ?_, ?_⟩
  · intro h
    constructor
    · simp [funcsRun, h]
    · simp [funcsRun, h, isMissingIndexError]
  · apply strContains_infix "No index found: "
      (". Create with ast.index('" ++ extOf fp ++ "', pattern)")
    rw [missingIndexMessage]
    simp [String.append_assoc]
  · apply decide_eq_true
    have hsplit : (". Create with ast.index('" : String).data =
        (". Create with " : String).data ++ ("ast.index('" : String).data := rfl
    refine ⟨("No index found: " ++ indexPathFor (extOf fp) ++
      ". Create with ").data, [], ?_⟩
    rw [missingIndexMessage]
    simp only [String.data_append, List.append_assoc, List.append_nil, hsplit]
    simp
  · intro h
    refine ⟨?_, ?_, ?_, ?_, ?_, ?_⟩ <;>
      simp [findRun, searchRun, classesRun, readParquet, indexPattern, h,
        isMissingIndexError, Except.map]
  · intro h
    refine ⟨?_, ?_, ?_, ?_⟩ <;>
      simp [srcRun, complexRun, readParquet, h, isMissingIndexError,
        Except.map]

/-- C8 witness: with no index file present, `AST.funcs` raises the dedicated
missing-index error while `AST.find` scoped to `py` does not. -/
theorem missing_index_reporting_witness :
    funcsRun store0 "x.py" = Except.error (QueryError.missingIndex
      (missingIndexMessage (extOf "x.py") (indexPathFor (extOf "x.py")))) ∧
    isMissingIndexError (findRun store0 "add" (some "py")) = false := by
  have h := missing_index_reporting store0 fileLines7 "x.py" "add" "t" "py" 0
  exact ⟨(h.1 rfl).1, (h.2.2.1 rfl).2.1⟩

end SittingDuck
